import Mathlib

/-!
Verification of the Atari 2600 emulator core (6507 CPU, bus, TIA, RIOT)
against its natural-language specification.

The Rust sources are embedded shallowly: eight-bit machine integers become
natural numbers below 256 (with explicit mod 2^8 where Rust wrapping
arithmetic wraps), sixteen-bit ones natural numbers below 65536, and
Rust arithmetic that can panic in checked builds (plain add and sub on
u8 or u16) becomes an Option-valued checked operation.  Bitwise ops use
Nat.land / Nat.xor / shifts, mirroring the Rust expressions.
-/

namespace Stanley

/-- Checked subtraction: models a plain Rust sub on an unsigned integer,
which panics when the subtrahend exceeds the minuend. -/
def checkedSub (a b : Nat) : Option Nat :=
  if b ≤ a then some (a - b) else none

/-- Checked addition bounded by a maximum value: models a plain Rust add
on an unsigned type with maximum m, which panics past the maximum. -/
def checkedAdd (m a b : Nat) : Option Nat :=
  if a + b ≤ m then some (a + b) else none

/-- CPU state of the 6507, from struct Nmos6507 (system/mod.rs) extended
with the V, B, D, I flags that the instruction executor
(system/instructions.rs) reads and writes and the spec data model lists. -/
structure Chip where
  x : Nat
  y : Nat
  a : Nat
  pc : Nat
  sp : Nat
  n : Bool
  v : Bool
  b : Bool
  d : Bool
  i : Bool
  z : Bool
  c : Bool
deriving Repr, DecidableEq

/-- Power-on CPU state: PC = 0x1000, everything else zero (Nmos6507::new). -/
def Chip.new : Chip :=
  { x := 0, y := 0, a := 0, pc := 0x1000, sp := 0
    n := false, v := false, b := false, d := false, i := false
    z := false, c := false }

/-- The ADC arm of Instruction::execute, as a function of the chip state and
the fetched operand byte; every addressing mode delivers the operand either
as an immediate Value or by a memory read, after which this flag and
register update is the same.  Mirrors instructions.rs lines 89-101:
the sum is computed in u16, C is set from result > 0xFF, V from
(a ^ result) & (v ^ result) & 0x80, N from bit 7 of the u16 result, and
A and Z from the truncated u8 result. -/
def adcExecute (ch : Chip) (value : Nat) : Chip :=
  let a := ch.a
  let c := if ch.c then 1 else 0
  let result := a + value + c
  let result8 := result % 256
  { ch with
    c := result > 0xFF
    v := ((a ^^^ result) &&& (value ^^^ result) &&& 0x80) ≠ 0
    n := (result &&& 0x80) ≠ 0
    z := result8 = 0
    a := result8 }

/-- The SBC arm of Instruction::execute (instructions.rs lines 119-129), as
a function of the chip state and the fetched operand byte: the u8 result is
a.wrapping_add(!v).wrapping_add(c) with !v the u8 complement 255 - v, and
the carry flag is set from bit 7 of that result (result & 0x80 != 0). -/
def sbcExecute (ch : Chip) (value : Nat) : Chip :=
  let a := ch.a
  let c := if ch.c then 1 else 0
  let result := (a + (255 - value) + c) % 256
  { ch with
    c := (result &&& 0x80) ≠ 0
    v := ((a ^^^ result) &&& ((255 - value) ^^^ result) &&& 0x80) ≠ 0
    n := (result &&& 0x80) ≠ 0
    z := result = 0
    a := result }

/-- The Cmp/Cpx/Cpy arm of Instruction::execute (instructions.rs lines
279-282) with the compared register value passed in: the wrapping u8
difference base.wrapping_sub(value) drives Z and N, and C is set from
the strict comparison base > value. -/
def cmpExecute (ch : Chip) (base value : Nat) : Chip :=
  let result := (base + 256 - value) % 256
  { ch with
    z := result = 0
    n := (result &&& 0x80) ≠ 0
    c := base > value }

/-- The Bit arm of Instruction::execute (instructions.rs lines 212-215):
all three flags are computed from test_value = A & M, including N and V. -/
def bitExecute (ch : Chip) (value : Nat) : Chip :=
  let testValue := ch.a &&& value
  { ch with
    z := testValue = 0
    n := (testValue &&& 0x80) ≠ 0
    v := (testValue &&& 0x40) ≠ 0 }

/-- For an eight-bit value, testing bit 7 by masking with 0x80 is the same
as comparing with 128. -/
lemma land128_iff {m : Nat} (hm : m < 256) : (m &&& 0x80) ≠ 0 ↔ 128 ≤ m := by
  have h : m &&& 0x80 = (m.testBit 7).toNat * 2 ^ 7 := by
    simpa using Nat.and_two_pow m 7
  rw [h, Nat.testBit_to_div_mod]
  rcases Nat.lt_or_ge m 128 with hl | hl
  · have hd : m / 2 ^ 7 = 0 := by omega
    rw [hd]
    simpa using by omega
  · have hd : m / 2 ^ 7 = 1 := by omega
    rw [hd]
    simpa using hl

/-- For an eight-bit value, testing bit 6 by masking with 0x40 is the same
as asking whether the quotient by 64 is odd. -/
lemma land64_iff {m : Nat} : (m &&& 0x40) ≠ 0 ↔ m / 64 % 2 = 1 := by
  have h : m &&& 0x40 = (m.testBit 6).toNat * 2 ^ 6 := by
    simpa using Nat.and_two_pow m 6
  rw [h, Nat.testBit_to_div_mod]
  by_cases hd : m / 2 ^ 6 % 2 = 1 <;> simp [hd]

/-- C1, counterexample.  The claim states that the carry flag returned by
SBC equals A ≥ (M + (1 − C)).  At A = 208, M = 112, C = 1 (the operands of
the repository's own test_instruction_type_sbc_execute, which asserts the
carry clear) the code clears the carry although 208 ≥ 112 + (1 − 1). -/
theorem C1_counterexample :
    (sbcExecute { Chip.new with a := 208, c := true } 112).c = false ∧
      208 ≥ 112 + (1 - 1) := by
  constructor
  · rfl
  · decide

/-- C1, amended.  For every accumulator a, operand value and incoming
carry, under every addressing mode (all modes hand the executed arm the
same fetched operand byte): the carry returned by ADC equals
(A + M + C) ≥ 256, as claimed; the carry returned by SBC however equals
bit 7 of the eight-bit result (A + (255 − M) + C) mod 256 — the same value
as the N flag — and not A ≥ M + (1 − C). -/
theorem C1_adc_sbc_carry (ch : Chip) (value : Nat) (hv : value < 256) :
    (adcExecute ch value).c =
        decide (ch.a + value + (if ch.c then 1 else 0) ≥ 256) ∧
      (sbcExecute ch value).c =
        decide (128 ≤ (ch.a + (255 - value) + (if ch.c then 1 else 0)) % 256) := by
  constructor
  · rfl
  · show decide _ = _
    rw [decide_eq_decide]
    exact land128_iff (Nat.mod_lt _ (by omega))

/-- C1, witness: the amended theorem evaluated at A = 208, M = 112, C = 1. -/
theorem C1_witness :
    (adcExecute { Chip.new with a := 208, c := true } 112).c =
        decide (208 + 112 + 1 ≥ 256) ∧
      (sbcExecute { Chip.new with a := 208, c := true } 112).c =
        decide (128 ≤ (208 + (255 - 112) + 1) % 256) := by
  simpa using C1_adc_sbc_carry { Chip.new with a := 208, c := true } 112 (by decide)

/-- C5, counterexample.  The claim states that after BIT, N is bit 7 of the
operand M and V is bit 6 of M.  With A = 0 and M = 0xC0 the code computes
both flags from A & M = 0 and clears them, although bits 7 and 6 of M are
both set. -/
theorem C5_counterexample :
    (bitExecute { Chip.new with a := 0 } 0xC0).n = false ∧
      (bitExecute { Chip.new with a := 0 } 0xC0).v = false ∧
      Nat.testBit 0xC0 7 = true ∧ Nat.testBit 0xC0 6 = true := by
  refine ⟨rfl, rfl, by decide, by decide⟩

/-- C5, amended.  After BIT with accumulator A and operand byte M, all
three flags are computed from the masked value A & M: Z = ((A & M) = 0),
N = bit 7 of (A & M), and V = bit 6 of (A & M) — not bits 7 and 6 of M. -/
theorem C5_bit_flags (ch : Chip) (value : Nat) (ha : ch.a < 256) :
    (bitExecute ch value).z = decide (ch.a &&& value = 0) ∧
      (bitExecute ch value).n = decide (128 ≤ ch.a &&& value) ∧
      (bitExecute ch value).v = decide ((ch.a &&& value) / 64 % 2 = 1) := by
  refine ⟨rfl, ?_, ?_⟩
  · show decide _ = _
    rw [decide_eq_decide]
    exact land128_iff (Nat.lt_of_le_of_lt Nat.and_le_left ha)
  · show decide _ = _
    rw [decide_eq_decide]
    exact land64_iff

/-- C5, witness: the amended theorem evaluated at A = 0xAA, M = 0xC0. -/
theorem C5_witness :
    (bitExecute { Chip.new with a := 0xAA } 0xC0).z = decide (0xAA &&& 0xC0 = 0) ∧
      (bitExecute { Chip.new with a := 0xAA } 0xC0).n = decide (128 ≤ 0xAA &&& 0xC0) ∧
      (bitExecute { Chip.new with a := 0xAA } 0xC0).v =
        decide ((0xAA &&& 0xC0) / 64 % 2 = 1) := by
  simpa using C5_bit_flags { Chip.new with a := 0xAA } 0xC0 (by decide)

/-!
Bus address decoding, from System::memory_set (system/mod.rs lines 34-56)
and System::memory_get (lines 58-79).  The Rust complement !index on u16
is embedded as 0xFFFF ^^^ index.
-/

/-- Where a bus write is dispatched by System::memory_set. -/
inductive WriteRoute
  | romFault
  | ram
  | tia
  | riot
  | unmapped
deriving Repr, DecidableEq

/-- Where a bus read is dispatched by System::memory_get. -/
inductive ReadRoute
  | rom
  | ram
  | tia
  | riot
  | unmapped
deriving Repr, DecidableEq

/-- The ROM guard: index & 0x1000 != 0 (a write here is the fatal
"assignment to program memory"; a read is served from the program). -/
abbrev romMask (a : Nat) : Prop := a &&& 0x1000 ≠ 0

/-- The RAM condition: (!index & 0x1200) == 0x1200 && (index & 0x0080) != 0. -/
abbrev ramMask (a : Nat) : Prop :=
  (0xFFFF ^^^ a) &&& 0x1200 = 0x1200 ∧ a &&& 0x0080 ≠ 0

/-- The TIA condition: (!index & 0x1080) == 0x1080, shared by reads and
writes. -/
abbrev tiaMask (a : Nat) : Prop := (0xFFFF ^^^ a) &&& 0x1080 = 0x1080

/-- The RIOT write condition: (!index & 0x1000) == 0x1000 &&
(index & 0x0294) != 0. -/
abbrev riotWriteMask (a : Nat) : Prop :=
  (0xFFFF ^^^ a) &&& 0x1000 = 0x1000 ∧ a &&& 0x0294 ≠ 0

/-- The RIOT read condition: (!index & 0x1000) == 0x1000 &&
(index & 0x0480) != 0. -/
abbrev riotReadMask (a : Nat) : Prop :=
  (0xFFFF ^^^ a) &&& 0x1000 = 0x1000 ∧ a &&& 0x0480 ≠ 0

/-- The dispatch order of System::memory_set: ROM guard, then RAM, then
TIA, then RIOT, falling through to the fatal todo. -/
def writeRoute (a : Nat) : WriteRoute :=
  if romMask a then .romFault
  else if ramMask a then .ram
  else if tiaMask a then .tia
  else if riotWriteMask a then .riot
  else .unmapped

/-- The dispatch order of System::memory_get: ROM, RAM, TIA, RIOT,
falling through to the fatal todo. -/
def readRoute (a : Nat) : ReadRoute :=
  if romMask a then .rom
  else if ramMask a then .ram
  else if tiaMask a then .tia
  else if riotReadMask a then .riot
  else .unmapped

/-- The same write dispatch with the RIOT mask tested before the RAM mask;
the claim asserts the routing result does not depend on the test order,
so it is compared against this permutation. -/
def writeRouteRiotBeforeRam (a : Nat) : WriteRoute :=
  if romMask a then .romFault
  else if riotWriteMask a then .riot
  else if ramMask a then .ram
  else if tiaMask a then .tia
  else .unmapped

/-- Complementation inside a sixteen-bit mask: the Rust test
(!index & m) == m says exactly that index has no bit of m set. -/
lemma comp_mask_iff {m : Nat} (hm : m < 65536) (a : Nat) :
    ((0xFFFF ^^^ a) &&& m = m) ↔ a &&& m = 0 := by
  have hdist : (0xFFFF ^^^ a) &&& m = (0xFFFF &&& m) ^^^ (a &&& m) :=
    Nat.and_xor_distrib_right
  have hid : 0xFFFF &&& m = m := by
    have h16 : (0xFFFF : Nat) = 2 ^ 16 - 1 := by norm_num
    rw [Nat.and_comm, h16, Nat.and_pow_two_sub_one_eq_mod]
    exact Nat.mod_eq_of_lt hm
  rw [hdist, hid]
  constructor
  · intro h
    have h0 : m ^^^ (a &&& m) = m ^^^ 0 := by simpa using h
    exact Nat.xor_right_inj.mp h0
  · intro h
    simp [h]

/-- A zero intersection with a mask forces a zero intersection with any
submask. -/
lemma and_zero_of_submask {a m k : Nat} (h : a &&& m = 0) (hk : m &&& k = k) :
    a &&& k = 0 := by
  calc a &&& k = a &&& (m &&& k) := by rw [hk]
    _ = (a &&& m) &&& k := (Nat.and_assoc a m k).symm
    _ = 0 := by rw [h, Nat.zero_and]

lemma ramMask_not_romMask {a : Nat} (h : ramMask a) : ¬ romMask a := by
  have h0 : a &&& 0x1200 = 0 := (comp_mask_iff (by norm_num) a).mp h.1
  have := and_zero_of_submask h0 (show 0x1200 &&& 0x1000 = 0x1000 by decide)
  simpa [romMask] using this

lemma tiaMask_not_romMask {a : Nat} (h : tiaMask a) : ¬ romMask a := by
  have h0 : a &&& 0x1080 = 0 := (comp_mask_iff (by norm_num) a).mp h
  have := and_zero_of_submask h0 (show 0x1080 &&& 0x1000 = 0x1000 by decide)
  simpa [romMask] using this

lemma tiaMask_not_ramMask {a : Nat} (h : tiaMask a) : ¬ ramMask a := by
  have h0 : a &&& 0x1080 = 0 := (comp_mask_iff (by norm_num) a).mp h
  have h80 := and_zero_of_submask h0 (show 0x1080 &&& 0x0080 = 0x0080 by decide)
  intro hr
  exact hr.2 h80

lemma riotWriteMask_not_romMask {a : Nat} (h : riotWriteMask a) : ¬ romMask a := by
  have h0 : a &&& 0x1000 = 0 := (comp_mask_iff (by norm_num) a).mp h.1
  simp [romMask, h0]

lemma riotReadMask_not_romMask {a : Nat} (h : riotReadMask a) : ¬ romMask a := by
  have h0 : a &&& 0x1000 = 0 := (comp_mask_iff (by norm_num) a).mp h.1
  simp [romMask, h0]

/-- C2, counterexample.  The claim states the decode masks are mutually
exclusive and that routing does not depend on the order the masks are
tested: the write address 0x0084 satisfies both the RAM and the RIOT write
masks, the read address 0x0480 satisfies both the RAM and the RIOT read
masks, and testing RIOT before RAM reroutes 0x0084 from RAM to RIOT. -/
theorem C2_counterexample :
    ramMask 0x0084 ∧ riotWriteMask 0x0084 ∧
      ramMask 0x0480 ∧ riotReadMask 0x0480 ∧
      writeRoute 0x0084 = WriteRoute.ram ∧
      writeRouteRiotBeforeRam 0x0084 = WriteRoute.riot := by
  refine ⟨by decide, by decide, by decide, by decide, by decide, by decide⟩

/-- C2, amended.  Every address is routed to exactly one disposition by
testing the masks in the fixed source order (ROM guard, RAM, TIA, RIOT,
fatal fall-through).  The ROM, RAM and TIA masks are pairwise exclusive,
so for those regions the route is equivalent to the bare mask; the RIOT
masks however overlap the RAM and TIA masks, so a RIOT route additionally
requires that the earlier RAM and TIA tests failed, and the routing result
does depend on the order in which the masks are tested. -/
theorem C2_route_by_first_match (a : Nat) :
    (¬ (romMask a ∧ ramMask a)) ∧
      (¬ (romMask a ∧ tiaMask a)) ∧
      (¬ (ramMask a ∧ tiaMask a)) ∧
      (writeRoute a = WriteRoute.romFault ↔ romMask a) ∧
      (writeRoute a = WriteRoute.ram ↔ ramMask a) ∧
      (writeRoute a = WriteRoute.tia ↔ tiaMask a) ∧
      (writeRoute a = WriteRoute.riot ↔
        riotWriteMask a ∧ ¬ ramMask a ∧ ¬ tiaMask a) ∧
      (writeRoute a = WriteRoute.unmapped ↔
        ¬ romMask a ∧ ¬ ramMask a ∧ ¬ tiaMask a ∧ ¬ riotWriteMask a) ∧
      (readRoute a = ReadRoute.rom ↔ romMask a) ∧
      (readRoute a = ReadRoute.ram ↔ ramMask a) ∧
      (readRoute a = ReadRoute.tia ↔ tiaMask a) ∧
      (readRoute a = ReadRoute.riot ↔
        riotReadMask a ∧ ¬ ramMask a ∧ ¬ tiaMask a) ∧
      (readRoute a = ReadRoute.unmapped ↔
        ¬ romMask a ∧ ¬ ramMask a ∧ ¬ tiaMask a ∧ ¬ riotReadMask a) := by
  have hrr : ramMask a → ¬ romMask a := ramMask_not_romMask
  have htr : tiaMask a → ¬ romMask a := tiaMask_not_romMask
  have hta : tiaMask a → ¬ ramMask a := tiaMask_not_ramMask
  have hwr : riotWriteMask a → ¬ romMask a := riotWriteMask_not_romMask
  have hdr : riotReadMask a → ¬ romMask a := riotReadMask_not_romMask
  unfold writeRoute readRoute
  split_ifs <;> simp_all <;> tauto

/-- C2, witness: the amended theorem evaluated at the bus address 0x0084. -/
theorem C2_witness :
    (writeRoute 0x0084 = WriteRoute.ram ↔ ramMask 0x0084) ∧
      (readRoute 0x0084 = ReadRoute.ram ↔ ramMask 0x0084) :=
  ⟨(C2_route_by_first_match 0x0084).2.2.2.2.1,
    (C2_route_by_first_match 0x0084).2.2.2.2.2.2.2.2.2.1⟩

/-!
The RIOT timer, from struct Riot (system/riot.rs).
-/

/-- RIOT state, from struct Riot (system/riot.rs lines 4-12). -/
structure Riot where
  timer : Nat
  clocks : Nat
  clocksPerInterval : Nat
  timint : Bool
  swcha : Nat
  timerReset : Bool
deriving Repr, DecidableEq

/-- Models Riot::new: swcha = 0xFF, everything else zero or false. -/
def Riot.new : Riot :=
  { timer := 0, clocks := 0, clocksPerInterval := 0
    timint := false, swcha := 0xFF, timerReset := false }

/-- Models Riot::tick (riot.rs lines 50-70).  A no-op while the prescaler
is zero or a timer write is pending.  Otherwise the accumulated clocks are
divided by the prescaler and cast to u8 (mod 256); overflowing_sub wraps
mod 256 with the overflow flag given by the strict comparison; in the
underflow branch the timer is reloaded with 0xFF and the two follow-up
plain u8 subtractions are embedded as checked subtractions, since a plain
Rust sub panics in a checked build when the subtrahend is larger. -/
def Riot.tick (r : Riot) (cycles : Nat) : Option Riot :=
  if r.clocksPerInterval = 0 ∨ r.timerReset = true then some r
  else if (r.clocks + cycles) / r.clocksPerInterval % 256 > r.timer then
    match checkedSub 0xFF
        ((0xFF - (r.timer + 256 - (r.clocks + cycles) / r.clocksPerInterval % 256) % 256)
          * r.clocksPerInterval % 256) with
    | none => none
    | some t1 =>
        match checkedSub t1 ((r.clocks + cycles) % r.clocksPerInterval % 256) with
        | none => none
        | some t2 => some { r with timer := t2, clocksPerInterval := 1, timint := true }
  else
    some { r with
      timer := (r.timer + 256 - (r.clocks + cycles) / r.clocksPerInterval % 256) % 256
      clocks := (r.clocks + cycles) % r.clocksPerInterval }

/-- Auxiliary subtraction identity used for the timer value after a
non-overflowing wrap-around subtraction. -/
lemma sub_formula (N K J : Nat) (h1 : K ≤ J) (h2 : J ≤ N) (h3 : N ≤ 255) :
    (N - K + 256 - (J - K)) % 256 = N - J := by omega

/-- Auxiliary bound: a difference below an eight-bit quantity stays below
256. -/
lemma sub_lt_formula (K J N : Nat) (h2 : J ≤ N) (h3 : N ≤ 255) : J - K < 256 := by omega

/-- Euclidean bookkeeping: feeding c further cycles to the remainder
u mod p consumes exactly the quotient increment of u + c, and leaves the
remainder of u + c. -/
lemma mod_add_div_shift (u c p : Nat) (hp : 0 < p) :
    (u % p + c) / p = (u + c) / p - u / p ∧ (u % p + c) % p = (u + c) % p := by
  have hu : u % p + c + u / p * p = u + c := by
    have h := Nat.mod_add_div' u p
    omega
  have h1 : (u % p + c + u / p * p) / p = (u % p + c) / p + u / p :=
    Nat.add_mul_div_right _ _ hp
  have h2 : (u % p + c + u / p * p) % p = (u % p + c) % p :=
    Nat.add_mul_mod_self_right _ _ _
  constructor
  · calc (u % p + c) / p = ((u % p + c) / p + u / p) - u / p :=
          (Nat.add_sub_cancel _ _).symm
      _ = (u % p + c + u / p * p) / p - u / p := by rw [h1]
      _ = (u + c) / p - u / p := by rw [hu]
  · calc (u % p + c) % p = (u % p + c + u / p * p) % p := h2.symm
      _ = (u + c) % p := by rw [hu]

/-- The timer-run invariant: after a write of n with prescaler p followed
by the loop-boundary reset clear and s accumulated cycles, the RIOT holds
prescaler p, no pending reset, no interrupt flag, timer value
n - ceil(s / p), and remainder clocks (p - 1 + s) mod p. -/
def timerInv (p n s : Nat) (r : Riot) : Prop :=
  r.clocksPerInterval = p ∧ r.timerReset = false ∧ r.timint = false ∧
    r.timer = n - (p - 1 + s) / p ∧ r.clocks = (p - 1 + s) % p

/-- One Riot::tick call of any size preserves the timer-run invariant as
long as the cumulative cycle count stays within the n * p budget. -/
lemma tick_preserves_timerInv {p n s c : Nat} {r : Riot}
    (hp : 0 < p) (hn : n ≤ 255) (hinv : timerInv p n s r)
    (hbound : s + c ≤ n * p) :
    ∃ r2, r.tick c = some r2 ∧ timerInv p n (s + c) r2 := by
  obtain ⟨hcpi, hreset, hint, htimer, hclocks⟩ := hinv
  have hassoc : p - 1 + (s + c) = p - 1 + s + c := by omega
  have hshift := mod_add_div_shift (p - 1 + s) c p hp
  have hmono : (p - 1 + s) / p ≤ (p - 1 + s + c) / p :=
    Nat.div_le_div_right (by omega)
  have hceil : (p - 1 + s + c) / p ≤ n := by
    have h1 : p - 1 + s + c ≤ p - 1 + n * p := by omega
    have h2 : (p - 1 + n * p) / p = (p - 1) / p + n := Nat.add_mul_div_right _ _ hp
    have h3 : (p - 1) / p = 0 := Nat.div_eq_of_lt (by omega)
    have h4 := Nat.div_le_div_right (c := p) h1
    omega
  have hdm : ((p - 1 + s) % p + c) / p % 256 =
      (p - 1 + s + c) / p - (p - 1 + s) / p := by
    rw [hshift.1]
    exact Nat.mod_eq_of_lt (sub_lt_formula _ _ n hceil hn)
  have hX : (n - (p - 1 + s) / p + 256 - ((p - 1 + s) % p + c) / p % 256) % 256 =
      n - (p - 1 + s + c) / p := by
    rw [hdm]
    exact sub_formula n _ _ hmono hceil hn
  refine ⟨{ r with
      timer := (r.timer + 256 - (r.clocks + c) / r.clocksPerInterval % 256) % 256
      clocks := (r.clocks + c) % r.clocksPerInterval }, ?_, ?_⟩
  · unfold Riot.tick
    rw [if_neg, if_neg]
    · rw [hcpi, hclocks, htimer, hdm]
      omega
    · simp [hcpi, hreset]
      omega
  · refine ⟨by simpa using hcpi, by simpa using hreset, by simpa using hint, ?_, ?_⟩
    · show (r.timer + 256 - (r.clocks + c) / r.clocksPerInterval % 256) % 256 =
        n - (p - 1 + (s + c)) / p
      rw [hcpi, hclocks, htimer, hassoc]
      exact hX
    · show (r.clocks + c) % r.clocksPerInterval = (p - 1 + (s + c)) % p
      rw [hcpi, hclocks, hassoc]
      exact hshift.2

/-- The prescaler selected by a RIOT timer write index (the match inside
Riot::set, riot.rs lines 27-33): 0x14, 0x15, 0x16, 0x17 give 1, 8, 64,
1024; anything else is a fatal todo. -/
def prescalerOfIndex (index : Nat) : Option Nat :=
  if index = 0x14 then some 1
  else if index = 0x15 then some 8
  else if index = 0x16 then some 64
  else if index = 0x17 then some 1024
  else none

/-- Models Riot::set (riot.rs lines 23-36): clear TIMINT, raise
timer_reset, store the value in the timer, select the prescaler by index,
and preload clocks with prescaler - 1 so the first decrement lands on the
next CPU cycle. -/
def Riot.set (r : Riot) (index value : Nat) : Option Riot :=
  match prescalerOfIndex index with
  | none => none
  | some cpi =>
      some { r with
        timint := false
        timerReset := true
        timer := value
        clocksPerInterval := cpi
        clocks := cpi - 1 }

/-- Models Riot::get (riot.rs lines 38-48): an index matching mask 0x0284
returns the timer and clears TIMINT; an index matching 0x280 returns
swcha; any other index is a fatal todo. -/
def Riot.get (r : Riot) (index : Nat) : Option (Nat × Riot) :=
  if index &&& 0x0284 = 0x0284 then some (r.timer, { r with timint := false })
  else if index &&& 0x280 = 0x280 then some (r.swcha, r)
  else none

/-- A sequence of Riot::tick calls (one per system-loop iteration),
propagating a panic. -/
def Riot.tickMany (r : Riot) : List Nat → Option Riot
  | [] => some r
  | c :: cs =>
      match r.tick c with
      | none => none
      | some r2 => r2.tickMany cs

/-- Any partition of tick calls preserves the timer-run invariant within
the n * p cycle budget. -/
lemma tickMany_timerInv {p n : Nat} (hp : 0 < p) (hn : n ≤ 255) :
    ∀ (cs : List Nat) (s : Nat) (r : Riot), timerInv p n s r →
      s + cs.sum ≤ n * p →
      ∃ r2, r.tickMany cs = some r2 ∧ timerInv p n (s + cs.sum) r2
  | [], s, r, hinv, _ => ⟨r, rfl, by simpa using hinv⟩
  | c :: cs, s, r, hinv, hbound => by
      have hsum : (c :: cs).sum = c + cs.sum := List.sum_cons
      have hstep := tick_preserves_timerInv hp hn hinv (c := c) (by omega)
      obtain ⟨r2, hr2, hinv2⟩ := hstep
      have hrec := tickMany_timerInv hp hn cs (s + c) r2 hinv2 (by omega)
      obtain ⟨r3, hr3, hinv3⟩ := hrec
      refine ⟨r3, ?_, ?_⟩
      · show Riot.tickMany r (c :: cs) = some r3
        unfold Riot.tickMany
        rw [hr2]
        exact hr3
      · rw [hsum]
        have : s + (c + cs.sum) = s + c + cs.sum := by omega
        rw [this]
        exact hinv3

/-- Every recognized prescaler index yields a positive prescaler. -/
lemma prescalerOfIndex_pos {index p : Nat} (h : prescalerOfIndex index = some p) :
    0 < p := by
  unfold prescalerOfIndex at h
  split_ifs at h <;> simp_all <;> omega

/-- C3.  For every prescaler index recognized by Riot::set (0x14, 0x15,
0x16, 0x17 selecting prescaler 1, 8, 64, 1024) and every written eight-bit
value n: after the write and the loop-boundary clearing of timer_reset,
ticking exactly n * prescaler CPU cycles in any partition of tick calls
leaves the timer at 0 with TIMINT still false (so a read of INTIM returns
0), and one further cycle drives the timer to 0xFF with TIMINT true. -/
theorem C3_riot_timer_expiry (r : Riot) (index n p : Nat)
    (hidx : prescalerOfIndex index = some p) (hn : n ≤ 255)
    (cs : List Nat) (hsum : cs.sum = n * p) :
    ∃ r1 r2 r3,
      r.set index n = some r1 ∧
      Riot.tickMany { r1 with timerReset := false } cs = some r2 ∧
      r2.get 0x0284 = some (0, { r2 with timint := false }) ∧
      r2.timint = false ∧
      Riot.tick { r2 with timint := false } 1 = some r3 ∧
      r3.get 0x0284 = some (0xFF, { r3 with timint := false }) ∧
      r3.timint = true := by
  have hp : 0 < p := prescalerOfIndex_pos hidx
  have hr1 : r.set index n = some { r with
      timint := false, timerReset := true, timer := n,
      clocksPerInterval := p, clocks := p - 1 } := by
    unfold Riot.set
    rw [hidx]
  set r1 : Riot := { r with
      timint := false, timerReset := true, timer := n,
      clocksPerInterval := p, clocks := p - 1 } with hr1def
  have hinv0 : timerInv p n 0 { r1 with timerReset := false } := by
    refine ⟨rfl, rfl, rfl, ?_, ?_⟩
    · show n = n - (p - 1 + 0) / p
      rw [Nat.add_zero, Nat.div_eq_of_lt (by omega), Nat.sub_zero]
    · show p - 1 = (p - 1 + 0) % p
      rw [Nat.add_zero, Nat.mod_eq_of_lt (by omega)]
  have hfold := tickMany_timerInv hp hn cs 0 _ hinv0 (by omega)
  obtain ⟨r2, hr2, hinv2⟩ := hfold
  have hdivfull : (p - 1 + (0 + cs.sum)) / p = n := by
    rw [Nat.zero_add, hsum]
    calc (p - 1 + n * p) / p = (p - 1) / p + n := Nat.add_mul_div_right _ _ hp
      _ = 0 + n := by rw [Nat.div_eq_of_lt (by omega)]
      _ = n := Nat.zero_add n
  have hmodfull : (p - 1 + (0 + cs.sum)) % p = p - 1 := by
    rw [Nat.zero_add, hsum, Nat.add_mul_mod_self_right, Nat.mod_eq_of_lt (by omega)]
  obtain ⟨t2v, c2v, cp2v, ti2v, sw2v, tr2v⟩ := r2
  obtain ⟨hcpi2, hreset2, hint2, htimer2, hclocks2⟩ := hinv2
  dsimp only at hcpi2 hreset2 hint2 htimer2 hclocks2
  rw [hdivfull] at htimer2
  rw [hmodfull] at hclocks2
  have ht0 : t2v = 0 := by omega
  subst hcpi2
  subst hreset2
  subst hint2
  subst ht0
  subst hclocks2
  refine ⟨r1, _, Riot.mk 255 (cp2v - 1) 1 true sw2v false,
    hr1, hr2, ?_, rfl, ?_, ?_, rfl⟩
  · unfold Riot.get
    rw [if_pos (by decide)]
  · unfold Riot.tick
    dsimp only
    rw [if_neg (by simp; omega)]
    have htot : cp2v - 1 + 1 = cp2v := by omega
    rw [htot, Nat.div_self hp, Nat.mod_self]
    norm_num [checkedSub]
  · unfold Riot.get
    rw [if_pos (by decide)]

/-- For the four hardware prescalers the truncated post-underflow
correction (overflow_ticks * prescaler) as u8 leaves enough room below
0xFF for the truncated remainder (total_clocks mod prescaler) as u8. -/
lemma riot_correction_bound (p ot x : Nat)
    (hp : p = 1 ∨ p = 8 ∨ p = 64 ∨ p = 1024) :
    x % p % 256 ≤ 255 - ot * p % 256 := by
  rcases hp with h | h | h | h <;> subst h
  · simp [Nat.mod_one]
  · have h256 : (256 : Nat) = 8 * 32 := by norm_num
    have e : ot * 8 % 256 = 8 * (ot % 32) := by
      rw [Nat.mul_comm ot 8, h256, Nat.mul_mod_mul_left]
    have h1 : ot % 32 < 32 := Nat.mod_lt _ (by norm_num)
    have h2 : x % 8 < 8 := Nat.mod_lt _ (by norm_num)
    have h3 : x % 8 % 256 = x % 8 := Nat.mod_eq_of_lt (by omega)
    rw [e, h3]
    omega
  · have h256 : (256 : Nat) = 64 * 4 := by norm_num
    have e : ot * 64 % 256 = 64 * (ot % 4) := by
      rw [Nat.mul_comm ot 64, h256, Nat.mul_mod_mul_left]
    have h1 : ot % 4 < 4 := Nat.mod_lt _ (by norm_num)
    have h2 : x % 64 < 64 := Nat.mod_lt _ (by norm_num)
    have h3 : x % 64 % 256 = x % 64 := Nat.mod_eq_of_lt (by omega)
    rw [e, h3]
    omega
  · have e : ot * 1024 % 256 = 0 := by
      have h4 : ot * 1024 = ot * 4 * 256 := by ring
      rw [h4, Nat.mul_mod_left]
    have h2 : x % 1024 % 256 < 256 := Nat.mod_lt _ (by norm_num)
    rw [e]
    omega

/-- C10.  In Riot::tick's underflow branch the two follow-up u8
subtractions (timer -= overflow_ticks * prescaler as u8, then
timer -= total_clocks mod prescaler as u8) never underflow for any timer
value, accumulated clocks and cycle count, for each prescaler in
{1, 8, 64, 1024}: the checked embedding of tick is total on that domain. -/
theorem C10_tick_total (r : Riot) (c : Nat)
    (hcpi : r.clocksPerInterval = 1 ∨ r.clocksPerInterval = 8 ∨
      r.clocksPerInterval = 64 ∨ r.clocksPerInterval = 1024) :
    (r.tick c).isSome = true := by
  unfold Riot.tick
  split_ifs with hg hov
  · rfl
  · have h1 : (0xFF - (r.timer + 256 -
        (r.clocks + c) / r.clocksPerInterval % 256) % 256)
          * r.clocksPerInterval % 256 ≤ 255 := by
      have := Nat.mod_lt ((0xFF - (r.timer + 256 -
        (r.clocks + c) / r.clocksPerInterval % 256) % 256)
          * r.clocksPerInterval) (y := 256) (by norm_num)
      omega
    have h2 := riot_correction_bound r.clocksPerInterval
      (0xFF - (r.timer + 256 -
        (r.clocks + c) / r.clocksPerInterval % 256) % 256)
      (r.clocks + c) hcpi
    simp [checkedSub, h1, h2]
  · rfl

/-- C3, witness: the theorem evaluated at a write of 3 to index 0x15
(prescaler 8) with the 24 cycles delivered as ticks of 9, 8 and 7,
mirroring the repository's test_8_clock_timer. -/
theorem C3_witness :
    ∃ r1 r2 r3,
      Riot.set Riot.new 0x15 3 = some r1 ∧
      Riot.tickMany { r1 with timerReset := false } [9, 8, 7] = some r2 ∧
      r2.get 0x0284 = some (0, { r2 with timint := false }) ∧
      r2.timint = false ∧
      Riot.tick { r2 with timint := false } 1 = some r3 ∧
      r3.get 0x0284 = some (0xFF, { r3 with timint := false }) ∧
      r3.timint = true :=
  C3_riot_timer_expiry Riot.new 0x15 3 8 (by decide) (by decide) [9, 8, 7] (by decide)

/-- C10, witness: the totality theorem evaluated on a RIOT running the
eight-cycle prescaler with a five-cycle tick. -/
theorem C10_witness :
    (Riot.tick { Riot.new with clocksPerInterval := 8, timer := 0 } 5).isSome = true :=
  C10_tick_total { Riot.new with clocksPerInterval := 8, timer := 0 } 5
    (Or.inr (Or.inl rfl))

/-!
The TIA, from struct Tia (system/tia.rs).
-/

/-- Player sprite width selector, from enum Nusize (system/tia.rs). -/
inductive Nusize
  | oneCopy
  | quad
deriving Repr, DecidableEq

/-- TIA state, from struct Tia (system/tia.rs lines 41-74).  The 160 x 192
x 4 byte framebuffer is omitted: Tia::tick writes pixels only into that
buffer via the COLOR_MAP palette of the colors module, which is absent
from the tree, and no claim reads it; all named scalar fields are kept. -/
structure Tia where
  vsync : Bool
  vblank : Bool
  wsync : Bool
  setResp0 : Bool
  colupf : Nat
  colubk : Nat
  colup0 : Nat
  colup1 : Nat
  pfReflected : Bool
  pf0 : Nat
  pf1 : Nat
  pf2 : Nat
  colorClocks : Nat
  joystick1TriggerPressed : Bool
  nusize0 : Nusize
  resp0 : Nat
  grp0 : Nat
deriving Repr, DecidableEq

/-- Models impl Default for Tia (tia.rs lines 76-114). -/
def Tia.default : Tia :=
  { vsync := false, vblank := false, wsync := false, setResp0 := false
    colupf := 0, colubk := 0, colup0 := 0, colup1 := 0
    pfReflected := false, pf0 := 0, pf1 := 0, pf2 := 0
    colorClocks := 0, joystick1TriggerPressed := false
    nusize0 := Nusize.oneCopy, resp0 := 0, grp0 := 0 }

/-- Models Tia::set (tia.rs lines 117-145).  VSYNC and VBLANK latch bit 1,
WSYNC raises the latch, NUSIZ0 accepts only 0x00 (OneCopy) and 0x07 (Quad)
and is otherwise fatal, CTRLPF keeps bit 0 as pf_reflected, PF0 retains
only the high nibble, PF1/PF2 store the full byte, RESP0 defers a
reposition request, GRP0 stores the pattern, and the remaining indices up
to 0x3F are ignored. -/
def Tia.set (t : Tia) (index value : Nat) : Option Tia :=
  if index = 0x00 then some { t with vsync := value &&& 0x02 ≠ 0 }
  else if index = 0x01 then some { t with vblank := value &&& 0x02 ≠ 0 }
  else if index = 0x02 then some { t with wsync := true }
  else if index = 0x03 then some t
  else if index = 0x04 then
    if value = 0x00 then some { t with nusize0 := Nusize.oneCopy }
    else if value = 0x07 then some { t with nusize0 := Nusize.quad }
    else none
  else if index = 0x05 then some t
  else if index = 0x06 then some { t with colup0 := value }
  else if index = 0x07 then some { t with colup1 := value }
  else if index = 0x08 then some { t with colupf := value }
  else if index = 0x09 then some { t with colubk := value }
  else if index = 0x0A then some { t with pfReflected := value &&& 0x01 = 1 }
  else if index ≤ 0x0C then some t
  else if index = 0x0D then some { t with pf0 := value &&& 0xF0 }
  else if index = 0x0E then some { t with pf1 := value }
  else if index = 0x0F then some { t with pf2 := value }
  else if index = 0x10 then some { t with setResp0 := true }
  else if index ≤ 0x1A then some t
  else if index = 0x1B then some { t with grp0 := value }
  else if index ≤ 0x3F then some t
  else none

/-- Models Tia::tick (tia.rs lines 167-202) on the scalar state: the beam
advances by three color clocks per CPU cycle and wraps at the frame
boundary 228 * 262.  The pixel loop touches only the omitted framebuffer,
so color_clocks is the only named field the source mutates here. -/
def Tia.tick (t : Tia) (clocks : Nat) : Tia :=
  { t with colorClocks := (t.colorClocks + clocks * 3) % (228 * 262) }

/-- Models Tia::wsync_ticks (tia.rs lines 204-207): the CPU cycles left in
the current scan line. -/
def Tia.wsyncTicks (t : Tia) : Nat :=
  (228 - t.colorClocks % 228) / 3

/-- Models Tia::sync (tia.rs lines 215-234): apply a deferred RESP0 using
the current beam column plus 6, then, when WSYNC is latched, return the
cycles left in the scan line (computed before any snap), snap the beam to
228 * 3 when VSYNC is set, and clear the latch. -/
def Tia.sync (t : Tia) : Nat × Tia :=
  let t1 := if t.setResp0 then
      { t with resp0 := t.colorClocks % 228 + 6, setResp0 := false }
    else t
  if t1.wsync then
    (t1.wsyncTicks,
      { (if t1.vsync then { t1 with colorClocks := 228 * 3 } else t1) with
          wsync := false })
  else (0, t1)

/-- Ticking preserves the beam phase classes modulo three. -/
lemma tick_colorClocks_mod3 {t : Tia} (h : t.colorClocks % 3 = 0) (clocks : Nat) :
    (t.tick clocks).colorClocks % 3 = 0 := by
  show (t.colorClocks + clocks * 3) % (228 * 262) % 3 = 0
  rw [Nat.mod_mod_of_dvd _ (by norm_num)]
  omega

/-- C4, amended.  Whenever the WSYNC latch is asserted, Tia::sync returns
exactly (228 - color_clocks mod 228) / 3 CPU cycles (computed before the
VSYNC snap) and clears the latch; and whenever VSYNC is not set at that
moment, consuming the WSYNC by ticking that many cycles - the spec's
system-loop step 6, the System that drives this Tia being absent from
src/ - puts color_clocks on a start-of-scan-line boundary (a multiple of
228 color clocks, i.e. of 76 CPU cycles), for every beam state whose
color_clocks is a multiple of three, which covers every reachable state.
When VSYNC is set the claimed boundary fails: see the counterexample. -/
theorem C4_wsync_alignment (t : Tia)
    (hm : t.colorClocks % 3 = 0) (hw : t.wsync = true) :
    (t.sync).1 = (228 - t.colorClocks % 228) / 3 ∧
      (t.sync).2.wsync = false ∧
      (t.vsync = false →
        ((t.sync).2.tick (t.sync).1).colorClocks % 228 = 0) := by
  have hcc3 : t.colorClocks % 228 % 3 = 0 := by
    rw [Nat.mod_mod_of_dvd _ (by norm_num)]
    exact hm
  have hdvd : 3 ∣ (228 - t.colorClocks % 228) := by
    refine Nat.dvd_of_mod_eq_zero ?_
    omega
  have hlt : t.colorClocks % 228 < 228 := Nat.mod_lt _ (by norm_num)
  have hmul : (228 - t.colorClocks % 228) / 3 * 3 = 228 - t.colorClocks % 228 :=
    Nat.div_mul_cancel hdvd
  unfold Tia.sync
  rcases hresp : t.setResp0 with _ | _
  all_goals rcases hvs : t.vsync with _ | _
  all_goals simp only [hresp, hvs, Bool.false_eq_true, if_false, if_true, hw]
  all_goals simp only [Tia.wsyncTicks, Tia.tick]
  all_goals refine ⟨by simp, by simp, ?_⟩
  · intro _
    show (t.colorClocks + (228 - t.colorClocks % 228) / 3 * 3) % (228 * 262) % 228 = 0
    rw [hmul, Nat.mod_mod_of_dvd _ (by norm_num)]
    omega
  · intro hfalse
    exact absurd hfalse (by simp)
  · intro _
    show (t.colorClocks + (228 - t.colorClocks % 228) / 3 * 3) % (228 * 262) % 228 = 0
    rw [hmul, Nat.mod_mod_of_dvd _ (by norm_num)]
    omega
  · intro hfalse
    exact absurd hfalse (by simp)


/-- C4, counterexample.  The claim asserts the boundary for every
reachable state.  Reach color_clocks = 114 by ticking 38 cycles from
power-on, write VSYNC := 2 and then WSYNC: sync returns 38 cycles and
snaps the beam to 684; ticking the 38 cycles leaves the beam at 798,
which is 114 color clocks past the VSYNC reset point 684 - not a
start-of-scan-line boundary, and (798 - 684) / 3 = 38 CPU cycles is not
a multiple of 76. -/
theorem C4_counterexample :
    ∃ t1 t2 : Tia,
      (Tia.default.tick 38).set 0x00 0x02 = some t1 ∧
      t1.set 0x02 0x00 = some t2 ∧
      (t2.sync).1 = 38 ∧
      ((t2.sync).2.tick (t2.sync).1).colorClocks = 798 ∧
      798 % 228 = 114 ∧
      ¬ (76 ∣ (798 - 684) / 3) := by
  refine ⟨_, _, rfl, rfl, ?_, ?_, by norm_num, by decide⟩
  · rfl
  · rfl

/-- Bit reversal of the low k bits: models reverse_bits on uk. -/
def revBits : Nat → Nat → Nat
  | 0, _ => 0
  | k + 1, v => revBits k (v / 2) + v % 2 * 2 ^ k

/-- Reversing zero gives zero. -/
lemma revBits_zero (k : Nat) : revBits k 0 = 0 := by
  induction k with
  | zero => rfl
  | succ k ih => simp [revBits, ih]

/-- A reversed k-bit value stays below 2 ^ k. -/
lemma revBits_lt (k v : Nat) : revBits k v < 2 ^ k := by
  induction k generalizing v with
  | zero => simp [revBits]
  | succ k ih =>
    have h1 := ih (v / 2)
    have h2 : v % 2 * 2 ^ k ≤ 2 ^ k := by
      have hb : v % 2 ≤ 1 := by omega
      calc v % 2 * 2 ^ k ≤ 1 * 2 ^ k := Nat.mul_le_mul_right _ hb
        _ = 2 ^ k := Nat.one_mul _
    have hp : 2 ^ (k + 1) = 2 * 2 ^ k := by ring
    show revBits k (v / 2) + v % 2 * 2 ^ k < 2 ^ (k + 1)
    omega

/-- Reversing an m-bit value inside a wider k-bit word shifts the m-bit
reversal to the top: this is how the u64 reverse_bits of the 20-bit
playfield word relates to its 20-bit reversal. -/
lemma revBits_shift (m : Nat) : ∀ k v, v < 2 ^ m → m ≤ k →
    revBits k v = revBits m v * 2 ^ (k - m) := by
  induction m with
  | zero =>
    intro k v hv _
    have h0 : v = 0 := by simpa using hv
    subst h0
    simp [revBits_zero, revBits]
  | succ m ih =>
    intro k v hv hmk
    cases k with
    | zero => omega
    | succ k =>
      have hm : m ≤ k := by omega
      have hv2 : v / 2 < 2 ^ m := by
        have hp : 2 ^ (m + 1) = 2 ^ m * 2 := by ring
        rw [hp] at hv
        exact Nat.div_lt_of_lt_mul (by omega)
      show revBits k (v / 2) + v % 2 * 2 ^ k =
        (revBits m (v / 2) + v % 2 * 2 ^ m) * 2 ^ (k + 1 - (m + 1))
      rw [ih k (v / 2) hv2 hm]
      have hks : k + 1 - (m + 1) = k - m := by omega
      rw [hks, Nat.add_mul]
      have hpow : 2 ^ m * 2 ^ (k - m) = 2 ^ k := by
        rw [← pow_add]
        congr 1
        omega
      rw [Nat.mul_assoc (v % 2) (2 ^ m) (2 ^ (k - m)), hpow]

/-- Doubling before reversing in one more bit is the identity on the
reversal. -/
lemma revBits_double (k v : Nat) : revBits (k + 1) (2 * v) = revBits k v := by
  show revBits k (2 * v / 2) + 2 * v % 2 * 2 ^ k = revBits k v
  rw [Nat.mul_div_cancel_left v (by norm_num), Nat.mul_mod_right]
  simp

/-- Reversing the eight bits of a value with a clear low nibble reverses
just its high nibble. -/
lemma revBits8_of_sixteen_mul (w : Nat) : revBits 8 (16 * w) = revBits 4 w := by
  have h1 : (16 : Nat) * w = 2 * (2 * (2 * (2 * w))) := by ring
  rw [h1, revBits_double, revBits_double, revBits_double, revBits_double]

set_option maxRecDepth 4096 in
/-- Masking an eight-bit value with 0xF0 keeps sixteen times its high
nibble. -/
lemma land_f0_eq (v : Nat) (hv : v < 256) : v &&& 0xF0 = 16 * (v / 16) := by
  revert hv
  revert v
  decide

/-- Models Tia::get_playfield (tia.rs lines 249-259): assemble
reverse(pf0), pf1, reverse(pf2) into a 24-bit word (20 significant bits
once PF0 keeps only its high nibble), place it in bits [39:20], and fill
the low 20 bits with either the word itself or its u64 bit reversal
shifted down by 64 - 20. -/
def Tia.getPlayfield (t : Tia) : Nat :=
  let playfield := revBits 8 t.pf0 * 2 ^ 16 + t.pf1 * 2 ^ 8 + revBits 8 t.pf2
  playfield * 2 ^ 20 +
    (if t.pfReflected then revBits 64 playfield / 2 ^ 44 else playfield)

/-- The playfield word as the spec words it, for comparison: bits
[39:36] = reverse(pf0[7:4]), [35:28] = pf1, [27:20] = reverse(pf2), and
the low 20 bits duplicate the high 20 (or their 20-bit reversal when
reflected). -/
def specPlayfield (pf0 pf1 pf2 : Nat) (reflected : Bool) : Nat :=
  let hi := revBits 4 (pf0 / 16) * 2 ^ 16 + pf1 * 2 ^ 8 + revBits 8 pf2
  hi * 2 ^ 20 + (if reflected then revBits 20 hi else hi)

/-- C9.  For every written PF0, PF1, PF2 byte and every CTRLPF byte
(whose bit 0 sets pf_reflected), writing them through Tia::set yields a
playfield state whose PF0 retains only the high nibble and whose derived
40-bit word satisfies the spec formula: bits [39:36] = reverse(pf0[7:4]),
[35:28] = pf1, [27:20] = reverse(pf2), low 20 bits equal to the high 20
bits, or to their bit reversal when pf_reflected is set. -/
theorem C9_playfield (t0 : Tia) (v0 v1 v2 w : Nat)
    (h0 : v0 < 256) (h1 : v1 < 256) (h2 : v2 < 256) :
    ∃ t : Tia,
      (t0.set 0x0D v0).bind (fun ta => (ta.set 0x0E v1).bind
        (fun tb => (tb.set 0x0F v2).bind (fun tc => tc.set 0x0A w))) = some t ∧
      t.pf0 = v0 &&& 0xF0 ∧
      t.pfReflected = decide (w &&& 0x01 = 1) ∧
      t.getPlayfield = specPlayfield v0 v1 v2 (decide (w &&& 0x01 = 1)) := by
  set tfin : Tia := { t0 with
    pf0 := v0 &&& 0xF0
    pf1 := v1
    pf2 := v2
    pfReflected := decide (w &&& 0x01 = 1) } with htfin
  refine ⟨tfin, rfl, rfl, rfl, ?_⟩
  have e0 : revBits 8 (v0 &&& 0xF0) = revBits 4 (v0 / 16) := by
    rw [land_f0_eq v0 h0, revBits8_of_sixteen_mul]
  have b0 : revBits 4 (v0 / 16) < 16 := by
    have := revBits_lt 4 (v0 / 16)
    norm_num at this
    exact this
  have b2 : revBits 8 v2 < 256 := by
    have := revBits_lt 8 v2
    norm_num at this
    exact this
  have hhi : revBits 4 (v0 / 16) * 2 ^ 16 + v1 * 2 ^ 8 + revBits 8 v2 < 2 ^ 20 := by
    norm_num
    omega
  simp only [htfin, Tia.getPlayfield, specPlayfield]
  rw [e0]
  by_cases hd : w &&& 0x01 = 1
  · simp only [hd, decide_True, if_true]
    congr 1
    rw [revBits_shift 20 64 _ hhi (by norm_num)]
    have h44 : (64 : Nat) - 20 = 44 := by norm_num
    rw [h44]
    exact Nat.mul_div_cancel _ (pow_pos (by norm_num) 44)
  · have hd2 : ¬ w % 2 = 1 := by rwa [Nat.and_one_is_mod] at hd
    simp [hd, hd2]


set_option maxHeartbeats 1000000 in
set_option maxHeartbeats 1600000 in
/-- Syncing preserves the beam phase modulo three: the VSYNC snap target
228 * 3 is itself a multiple of three.  Together with tick preservation
and Tia::set never touching color_clocks, this shows every reachable
beam state has color_clocks divisible by three. -/
lemma sync_colorClocks_mod3 {t : Tia} (h : t.colorClocks % 3 = 0) :
    (t.sync).2.colorClocks % 3 = 0 := by
  unfold Tia.sync
  rcases ht : t.setResp0 <;> rcases hw : t.wsync <;> rcases hv : t.vsync <;>
    simp [ht, hw, hv, h]

/-- C4, witness: the amended theorem at a beam state 114 color clocks into
the frame with the WSYNC latch set and VSYNC clear. -/
theorem C4_witness :
    (({ Tia.default with colorClocks := 114, wsync := true } : Tia).sync).1 =
        (228 - 114 % 228) / 3 ∧
      (({ Tia.default with colorClocks := 114, wsync := true } : Tia).sync).2.wsync = false ∧
      (({ Tia.default with colorClocks := 114, wsync := true } : Tia).vsync = false →
        ((({ Tia.default with colorClocks := 114, wsync := true } : Tia).sync).2.tick
          (({ Tia.default with colorClocks := 114, wsync := true } : Tia).sync).1).colorClocks
            % 228 = 0) :=
  C4_wsync_alignment { Tia.default with colorClocks := 114, wsync := true }
    (by decide) (by decide)

/-- C9, witness: the playfield theorem at PF0 = 0x10, PF1 = 0, PF2 = 0
with CTRLPF = 0, the sixth concrete scenario of the spec. -/
theorem C9_witness :
    ∃ t : Tia,
      (Tia.default.set 0x0D 0x10).bind (fun ta => (ta.set 0x0E 0).bind
        (fun tb => (tb.set 0x0F 0).bind (fun tc => tc.set 0x0A 0))) = some t ∧
      t.pf0 = 0x10 &&& 0xF0 ∧
      t.pfReflected = decide (0 &&& 0x01 = 1) ∧
      t.getPlayfield = specPlayfield 0x10 0 0 (decide (0 &&& 0x01 = 1)) :=
  C9_playfield Tia.default 0x10 0 0 0 (by decide) (by decide) (by decide)

/-!
The System bus and the stack instructions, from System (system/mod.rs)
and the Pha/Php/Pla/Plp/Jsr/Rts arms of Instruction::execute
(system/instructions.rs).
-/

/-- Models Tia::get (tia.rs lines 147-164): an index ending in 0xC reads
INPT4 (0x80 released, 0x00 pressed); an index ending in 0xE reads 0; any
other read is fatal. -/
def Tia.get (t : Tia) (index : Nat) : Option Nat :=
  if index &&& 0x000F = 0xC then
    some (if t.joystick1TriggerPressed then 0 else 0x80)
  else if index &&& 0x000F = 0xE then some 0
  else none

/-- Models Riot::default (the derive on struct Riot), used by
System::new: every field zero or false. -/
def Riot.default : Riot :=
  { timer := 0, clocks := 0, clocksPerInterval := 0
    timint := false, swcha := 0, timerReset := false }

/-- System state (system/mod.rs lines 12-20), with the Tia of
system/tia.rs that lib.rs wires in; RAM and ROM are byte functions over
their index ranges. -/
structure Sys where
  chip : Chip
  riot : Riot
  tia : Tia
  memory : Nat → Nat
  program : Nat → Nat
  clocks : Nat

/-- Models System::new(program). -/
def Sys.new (program : Nat → Nat) : Sys :=
  { chip := Chip.new, riot := Riot.default, tia := Tia.default
    memory := fun _ => 0, program := program, clocks := 0 }

/-- Models System::memory_set (mod.rs lines 34-56): the fatal ROM guard,
then RAM, TIA and RIOT by the decode masks in source order, with the
fatal todo fall-through. -/
def memorySet (s : Sys) (index value : Nat) : Option Sys :=
  if romMask index then none
  else if ramMask index then
    some { s with memory := fun j => if j = (index &&& 0x007F) then value else s.memory j }
  else if tiaMask index then
    (s.tia.set (index &&& 0x003F) value).map fun t => { s with tia := t }
  else if riotWriteMask index then
    (s.riot.set (index &&& 0x001F) value).map fun r => { s with riot := r }
  else none

/-- Models System::memory_get (mod.rs lines 58-79); the RIOT read mutates
TIMINT, so the system comes back possibly changed. -/
def memoryGet (s : Sys) (index : Nat) : Option (Nat × Sys) :=
  if romMask index then some (s.program (index &&& 0x0FFF), s)
  else if ramMask index then some (s.memory (index &&& 0x007F), s)
  else if tiaMask index then
    (s.tia.get (index &&& 0x000F)).map fun v => (v, s)
  else if riotReadMask index then
    (s.riot.get index).map fun vr => (vr.1, { s with riot := vr.2 })
  else none

/-- Models System::next_byte (mod.rs lines 81-85): read at PC, then a
plain u16 increment of PC (checked at 0xFFFF). -/
def nextByte (s : Sys) : Option (Nat × Sys) :=
  match memoryGet s s.chip.pc with
  | none => none
  | some (b, s1) =>
      (checkedAdd 0xFFFF s1.chip.pc 1).map fun pc2 =>
        (b, { s1 with chip := { s1.chip with pc := pc2 } })

/-- Modelled from the spec: System::status, which PHP pushes, is not
under src/ (only instructions.rs calls it and the PHP unit test pins it).
Spec 4.1 says PHP pushes a byte with bit 5 forced to 1; the test fixes
the 6502 NV1BDIZC bit layout with B at bit 4. -/
def status (ch : Chip) : Nat :=
  (if ch.n then 128 else 0) + (if ch.v then 64 else 0) + 32 +
    (if ch.b then 16 else 0) + (if ch.d then 8 else 0) +
    (if ch.i then 4 else 0) + (if ch.z then 2 else 0) +
    (if ch.c then 1 else 0)

/-- Modelled from the spec: System::status_set, which PLP applies, is not
under src/ (only instructions.rs calls it and the PLP unit test pins it).
Spec 4.1 says PLP writes all flags; each flag takes its 6502 layout bit,
the unused bit 5 ignored. -/
def statusSet (ch : Chip) (v : Nat) : Chip :=
  { ch with
    n := v.testBit 7, v := v.testBit 6, b := v.testBit 4
    d := v.testBit 3, i := v.testBit 2, z := v.testBit 1, c := v.testBit 0 }

/-- Models the Pha arm of Instruction::execute (instructions.rs lines
449-458): write A through the bus at address SP, then a plain (checked)
u8 decrement of SP. -/
def phaExecute (s : Sys) : Option Sys :=
  match memorySet s s.chip.sp s.chip.a with
  | none => none
  | some s1 =>
      (checkedSub s1.chip.sp 1).map fun sp2 =>
        { s1 with chip := { s1.chip with sp := sp2 } }

/-- Models the Php arm (same lines): as PHA with the status byte. -/
def phpExecute (s : Sys) : Option Sys :=
  match memorySet s s.chip.sp (status s.chip) with
  | none => none
  | some s1 =>
      (checkedSub s1.chip.sp 1).map fun sp2 =>
        { s1 with chip := { s1.chip with sp := sp2 } }

/-- Models the Pla arm (instructions.rs lines 459-463): a plain (checked)
u8 increment of SP, then read A through the bus at the new SP. -/
def plaExecute (s : Sys) : Option Sys :=
  match checkedAdd 0xFF s.chip.sp 1 with
  | none => none
  | some sp2 =>
      (memoryGet { s with chip := { s.chip with sp := sp2 } } sp2).map
        fun vs => { vs.2 with chip := { vs.2.chip with a := vs.1 } }

/-- Models the Plp arm (instructions.rs lines 464-469): increment SP,
read through the bus, then write all flags via status_set. -/
def plpExecute (s : Sys) : Option Sys :=
  match checkedAdd 0xFF s.chip.sp 1 with
  | none => none
  | some sp2 =>
      (memoryGet { s with chip := { s.chip with sp := sp2 } } sp2).map
        fun vs => { vs.2 with chip := statusSet vs.2.chip vs.1 }

/-- Models the Rts arm (instructions.rs lines 432-439): increment SP and
read the low return byte, increment again and read the high byte, then
PC := (high << 8) + low + 1 with the final plain u16 add checked. -/
def rtsExecute (s : Sys) : Option Sys :=
  match checkedAdd 0xFF s.chip.sp 1 with
  | none => none
  | some sp1 =>
      match memoryGet { s with chip := { s.chip with sp := sp1 } } sp1 with
      | none => none
      | some (low, s1) =>
          match checkedAdd 0xFF s1.chip.sp 1 with
          | none => none
          | some sp2 =>
              match memoryGet { s1 with chip := { s1.chip with sp := sp2 } } sp2 with
              | none => none
              | some (high, s2) =>
                  (checkedAdd 0xFFFF (high * 256 + low) 1).map fun pc2 =>
                    { s2 with chip := { s2.chip with pc := pc2 } }

/-- Models the Jsr arm (instructions.rs lines 355-370) with its Absolute
mode (opcode 0x20): fetch the two target bytes, then push the high byte
of the return PC at SP, decrement SP (checked), push the low return byte
minus one (a plain u8 subtraction, checked), decrement SP again, and jump. -/
def jsrExecute (s : Sys) : Option Sys :=
  match nextByte s with
  | none => none
  | some (low, s1) =>
      match nextByte s1 with
      | none => none
      | some (high, s2) =>
          let addr := high * 256 + low
          let retLow := s2.chip.pc % 256
          let retHigh := s2.chip.pc / 256 % 256
          match memorySet s2 s2.chip.sp retHigh with
          | none => none
          | some s3 =>
              match checkedSub s3.chip.sp 1 with
              | none => none
              | some sp1 =>
                  let s4 : Sys := { s3 with chip := { s3.chip with sp := sp1 } }
                  match checkedSub retLow 1 with
                  | none => none
                  | some pushed =>
                      match memorySet s4 s4.chip.sp pushed with
                      | none => none
                      | some s5 =>
                          (checkedSub s5.chip.sp 1).map fun sp2 =>
                            { s5 with chip := { s5.chip with sp := sp2, pc := addr } }

set_option maxRecDepth 4096 in
/-- Stack addresses 0x80..0xFF fail the ROM guard and satisfy the RAM
decode mask. -/
lemma stack_masks : ∀ a : Nat, a < 256 → 128 ≤ a → ¬ romMask a ∧ ramMask a := by
  decide

/-- A bus write at a stack address lands in RAM cell addr & 0x7F. -/
lemma memorySet_stack (s : Sys) {addr : Nat} (v : Nat)
    (h1 : 128 ≤ addr) (h2 : addr < 256) :
    memorySet s addr v =
      some { s with memory :=
        fun j => if j = (addr &&& 0x007F) then v else s.memory j } := by
  obtain ⟨hrom, hram⟩ := stack_masks addr h2 h1
  unfold memorySet
  rw [if_neg hrom, if_pos hram]

/-- A bus read at a stack address returns RAM cell addr & 0x7F and leaves
the system unchanged. -/
lemma memoryGet_stack (s : Sys) {addr : Nat}
    (h1 : 128 ≤ addr) (h2 : addr < 256) :
    memoryGet s addr = some (s.memory (addr &&& 0x007F), s) := by
  obtain ⟨hrom, hram⟩ := stack_masks addr h2 h1
  unfold memoryGet
  rw [if_neg hrom, if_pos hram]

/-- Fetching with PC inside the ROM window reads the program byte and
advances PC. -/
lemma nextByte_rom (s : Sys) (hrom : romMask s.chip.pc)
    (hpc : s.chip.pc + 1 ≤ 0xFFFF) :
    nextByte s = some (s.program (s.chip.pc &&& 0x0FFF),
      { s with chip := { s.chip with pc := s.chip.pc + 1 } }) := by
  unfold nextByte memoryGet
  rw [if_pos hrom]
  dsimp only
  unfold checkedAdd
  rw [if_pos hpc]
  rfl

/-- The PHA equation: write A at SP through the bus, decrement SP after. -/
lemma pha_eq (s : Sys) (h1 : 128 ≤ s.chip.sp) (h2 : s.chip.sp ≤ 0xFF) :
    phaExecute s = some { s with
      memory := fun j =>
        if j = (s.chip.sp &&& 0x007F) then s.chip.a else s.memory j
      chip := { s.chip with sp := s.chip.sp - 1 } } := by
  unfold phaExecute
  rw [memorySet_stack s s.chip.a h1 (by omega)]
  dsimp only
  unfold checkedSub
  rw [if_pos (by omega : 1 ≤ s.chip.sp)]
  rfl

/-- The PHP equation: write the status byte at SP, decrement SP after. -/
lemma php_eq (s : Sys) (h1 : 128 ≤ s.chip.sp) (h2 : s.chip.sp ≤ 0xFF) :
    phpExecute s = some { s with
      memory := fun j =>
        if j = (s.chip.sp &&& 0x007F) then status s.chip else s.memory j
      chip := { s.chip with sp := s.chip.sp - 1 } } := by
  unfold phpExecute
  rw [memorySet_stack s (status s.chip) h1 (by omega)]
  dsimp only
  unfold checkedSub
  rw [if_pos (by omega : 1 ≤ s.chip.sp)]
  rfl

/-- The PLA equation: increment SP first, then read A from the new SP. -/
lemma pla_eq (s : Sys) (h1 : 0x7F ≤ s.chip.sp) (h2 : s.chip.sp ≤ 0xFE) :
    plaExecute s = some { s with
      chip := { s.chip with
        sp := s.chip.sp + 1
        a := s.memory ((s.chip.sp + 1) &&& 0x007F) } } := by
  unfold plaExecute
  unfold checkedAdd
  rw [if_pos (by omega : s.chip.sp + 1 ≤ 0xFF)]
  dsimp only
  rw [memoryGet_stack _ (by omega) (by omega)]
  rfl

/-- The PLP equation: increment SP first, then load all flags from the
byte at the new SP. -/
lemma plp_eq (s : Sys) (h1 : 0x7F ≤ s.chip.sp) (h2 : s.chip.sp ≤ 0xFE) :
    plpExecute s = some { s with
      chip := statusSet { s.chip with sp := s.chip.sp + 1 }
        (s.memory ((s.chip.sp + 1) &&& 0x007F)) } := by
  unfold plpExecute
  unfold checkedAdd
  rw [if_pos (by omega : s.chip.sp + 1 ≤ 0xFF)]
  dsimp only
  rw [memoryGet_stack _ (by omega) (by omega)]
  rfl

/-- The RTS equation: increment before each of the two pops, then
PC := (high << 8) + low + 1. -/
lemma rts_eq (s : Sys) (h1 : 0x7F ≤ s.chip.sp) (h2 : s.chip.sp ≤ 0xFD)
    (h3 : s.memory ((s.chip.sp + 2) &&& 0x007F) * 256 +
      s.memory ((s.chip.sp + 1) &&& 0x007F) + 1 ≤ 0xFFFF) :
    rtsExecute s = some { s with
      chip := { s.chip with
        sp := s.chip.sp + 2
        pc := s.memory ((s.chip.sp + 2) &&& 0x007F) * 256 +
          s.memory ((s.chip.sp + 1) &&& 0x007F) + 1 } } := by
  unfold rtsExecute
  unfold checkedAdd
  rw [if_pos (by omega : s.chip.sp + 1 ≤ 0xFF)]
  dsimp only
  rw [memoryGet_stack _ (by omega) (by omega)]
  dsimp only
  rw [if_pos (by omega : s.chip.sp + 1 + 1 ≤ 0xFF)]
  dsimp only
  have hsp : s.chip.sp + 1 + 1 = s.chip.sp + 2 := by omega
  rw [hsp]
  rw [memoryGet_stack _ (by omega) (by omega)]
  dsimp only
  rw [if_pos h3]
  rfl

/-- The JSR equation: fetch the two target bytes, push return-PC high at
SP, push (return-PC low minus one) at SP - 1, leave SP decremented twice
and PC at the target. -/
lemma jsr_eq (s : Sys) (h1 : 0x81 ≤ s.chip.sp) (h2 : s.chip.sp ≤ 0xFF)
    (hr1 : romMask s.chip.pc) (hr2 : romMask (s.chip.pc + 1))
    (hpc : s.chip.pc + 2 ≤ 0xFFFF) (hlow : 1 ≤ (s.chip.pc + 2) % 256) :
    jsrExecute s = some { s with
      memory := fun j =>
        if j = ((s.chip.sp - 1) &&& 0x007F) then (s.chip.pc + 2) % 256 - 1
        else if j = (s.chip.sp &&& 0x007F) then (s.chip.pc + 2) / 256 % 256
        else s.memory j
      chip := { s.chip with
        sp := s.chip.sp - 2
        pc := s.program ((s.chip.pc + 1) &&& 0x0FFF) * 256 +
          s.program (s.chip.pc &&& 0x0FFF) } } := by
  unfold jsrExecute
  rw [nextByte_rom s hr1 (by omega)]
  dsimp only
  rw [nextByte_rom _ hr2 (by dsimp only; omega)]
  dsimp only
  rw [show s.chip.pc + 1 + 1 = s.chip.pc + 2 from by omega]
  rw [memorySet_stack _ _ (by omega) (by omega)]
  dsimp only
  unfold checkedSub
  rw [if_pos (by omega : 1 ≤ s.chip.sp)]
  dsimp only
  rw [if_pos hlow]
  dsimp only
  rw [memorySet_stack _ _ (by omega) (by omega)]
  dsimp only
  rw [if_pos (by omega : 1 ≤ s.chip.sp - 1)]
  rw [show s.chip.sp - 1 - 1 = s.chip.sp - 2 from by omega]
  rfl

/-- C8, amended.  Stack discipline of the bus-level stack operations:
PHA, PHP and JSR write each pushed byte through the bus at address SP
(which resolves to RAM cell SP & 0x7F for 0x80 <= SP <= 0xFF) and
decrement SP after the write; PLA, PLP and RTS increment SP before each
read.  SP arithmetic however is plain (checked) u8 arithmetic, not
wrapping: decrementing from SP = 0 fails rather than yielding 0xFF (see
the counterexample), so the equations below carry the SP ranges keeping
every step in bounds, and JSR also needs its fetches inside ROM and a
nonzero low return byte for its own plain u8 subtraction. -/
theorem C8_stack_discipline (s : Sys) :
    (128 ≤ s.chip.sp → s.chip.sp ≤ 0xFF → phaExecute s = some { s with
      memory := fun j =>
        if j = (s.chip.sp &&& 0x007F) then s.chip.a else s.memory j
      chip := { s.chip with sp := s.chip.sp - 1 } }) ∧
    (128 ≤ s.chip.sp → s.chip.sp ≤ 0xFF → phpExecute s = some { s with
      memory := fun j =>
        if j = (s.chip.sp &&& 0x007F) then status s.chip else s.memory j
      chip := { s.chip with sp := s.chip.sp - 1 } }) ∧
    (0x7F ≤ s.chip.sp → s.chip.sp ≤ 0xFE → plaExecute s = some { s with
      chip := { s.chip with
        sp := s.chip.sp + 1
        a := s.memory ((s.chip.sp + 1) &&& 0x007F) } }) ∧
    (0x7F ≤ s.chip.sp → s.chip.sp ≤ 0xFE → plpExecute s = some { s with
      chip := statusSet { s.chip with sp := s.chip.sp + 1 }
        (s.memory ((s.chip.sp + 1) &&& 0x007F)) }) ∧
    (0x7F ≤ s.chip.sp → s.chip.sp ≤ 0xFD →
      s.memory ((s.chip.sp + 2) &&& 0x007F) * 256 +
        s.memory ((s.chip.sp + 1) &&& 0x007F) + 1 ≤ 0xFFFF → rtsExecute s = some { s with
      chip := { s.chip with
        sp := s.chip.sp + 2
        pc := s.memory ((s.chip.sp + 2) &&& 0x007F) * 256 +
          s.memory ((s.chip.sp + 1) &&& 0x007F) + 1 } }) ∧
    (0x81 ≤ s.chip.sp → s.chip.sp ≤ 0xFF →
      romMask s.chip.pc → romMask (s.chip.pc + 1) → s.chip.pc + 2 ≤ 0xFFFF →
      1 ≤ (s.chip.pc + 2) % 256 → jsrExecute s = some { s with
      memory := fun j =>
        if j = ((s.chip.sp - 1) &&& 0x007F) then (s.chip.pc + 2) % 256 - 1
        else if j = (s.chip.sp &&& 0x007F) then (s.chip.pc + 2) / 256 % 256
        else s.memory j
      chip := { s.chip with
        sp := s.chip.sp - 2
        pc := s.program ((s.chip.pc + 1) &&& 0x0FFF) * 256 +
          s.program (s.chip.pc &&& 0x0FFF) } }) := by
  refine ⟨fun h1 h2 => pha_eq s h1 h2, fun h1 h2 => php_eq s h1 h2,
    fun h1 h2 => pla_eq s h1 h2, fun h1 h2 => plp_eq s h1 h2,
    fun h1 h2 h3 => rts_eq s h1 h2 h3,
    fun h1 h2 hr1 hr2 hpc hlow => jsr_eq s h1 h2 hr1 hr2 hpc hlow⟩

/-- The concrete system used by the C8 witness: power-on state over an
all-zero ROM, with SP preset to 0x90 the way games do via LDX/TXS. -/
def stackWitnessSys : Sys :=
  { Sys.new (fun _ => 0) with chip := { Chip.new with sp := 0x90 } }

/-- C8, witness: the stack-discipline theorem applied at the concrete
system with SP = 0x90 and PC = 0x1000, every hypothesis discharged by
computation. -/
theorem C8_witness :
    (phaExecute stackWitnessSys = some { stackWitnessSys with
      memory := fun j =>
        if j = (stackWitnessSys.chip.sp &&& 0x007F) then stackWitnessSys.chip.a else stackWitnessSys.memory j
      chip := { stackWitnessSys.chip with sp := stackWitnessSys.chip.sp - 1 } }) ∧
    (phpExecute stackWitnessSys = some { stackWitnessSys with
      memory := fun j =>
        if j = (stackWitnessSys.chip.sp &&& 0x007F) then status stackWitnessSys.chip else stackWitnessSys.memory j
      chip := { stackWitnessSys.chip with sp := stackWitnessSys.chip.sp - 1 } }) ∧
    (plaExecute stackWitnessSys = some { stackWitnessSys with
      chip := { stackWitnessSys.chip with
        sp := stackWitnessSys.chip.sp + 1
        a := stackWitnessSys.memory ((stackWitnessSys.chip.sp + 1) &&& 0x007F) } }) ∧
    (plpExecute stackWitnessSys = some { stackWitnessSys with
      chip := statusSet { stackWitnessSys.chip with sp := stackWitnessSys.chip.sp + 1 }
        (stackWitnessSys.memory ((stackWitnessSys.chip.sp + 1) &&& 0x007F)) }) ∧
    (rtsExecute stackWitnessSys = some { stackWitnessSys with
      chip := { stackWitnessSys.chip with
        sp := stackWitnessSys.chip.sp + 2
        pc := stackWitnessSys.memory ((stackWitnessSys.chip.sp + 2) &&& 0x007F) * 256 +
          stackWitnessSys.memory ((stackWitnessSys.chip.sp + 1) &&& 0x007F) + 1 } }) ∧
    (jsrExecute stackWitnessSys = some { stackWitnessSys with
      memory := fun j =>
        if j = ((stackWitnessSys.chip.sp - 1) &&& 0x007F) then (stackWitnessSys.chip.pc + 2) % 256 - 1
        else if j = (stackWitnessSys.chip.sp &&& 0x007F) then (stackWitnessSys.chip.pc + 2) / 256 % 256
        else stackWitnessSys.memory j
      chip := { stackWitnessSys.chip with
        sp := stackWitnessSys.chip.sp - 2
        pc := stackWitnessSys.program ((stackWitnessSys.chip.pc + 1) &&& 0x0FFF) * 256 +
          stackWitnessSys.program (stackWitnessSys.chip.pc &&& 0x0FFF) } }) := by
  have h := C8_stack_discipline stackWitnessSys
  exact ⟨h.1 (by decide) (by decide), h.2.1 (by decide) (by decide),
    h.2.2.1 (by decide) (by decide), h.2.2.2.1 (by decide) (by decide),
    h.2.2.2.2.1 (by decide) (by decide) (by decide),
    h.2.2.2.2.2 (by decide) (by decide) (by decide) (by decide) (by decide)
      (by decide)⟩

/-- C8, counterexample.  The claim states SP arithmetic wraps as a u8 so
that decrementing from SP = 0 yields 0xFF rather than failing.  At the
power-on state SP = 0: PHA's bus write succeeds (address 0 routes to the
TIA), but the plain u8 decrement of SP fails instead of wrapping. -/
theorem C8_counterexample :
    phaExecute (Sys.new (fun _ => 0)) = none := by
  rfl

/-!
Zero-page indexed addressing, from AddressMode::execute
(system/instructions.rs lines 836-853).
-/

/-- Models the zero-page index computation shared by the ZeroPageX,
ZeroPageY and ZeroPageIX arms of AddressMode::execute:
(system.next_byte() + register) as u16, whose inner addition is a plain
u8 add, checked here because it panics past 0xFF in a checked Rust
build - each of the three arms carries a wrap-around TODO in the source. -/
def zeroPageIndexedAddr (operand index : Nat) : Option Nat :=
  checkedAdd 0xFF operand index

/-- C7.  The claim states the effective zero-page address always equals
(operand + index) mod 256, including pairs whose sum exceeds 0xFF.  Sums
up to 0xFF do match the claim, but an overflowing pair such as operand =
0xFF with X = 1 does not produce (0xFF + 1) mod 256 = 0: the plain u8
addition fails there, as the wrap-around TODOs in the source acknowledge. -/
theorem C7_zero_page_wrap :
    (∀ operand index : Nat, operand + index ≤ 0xFF →
      zeroPageIndexedAddr operand index = some ((operand + index) % 256)) ∧
      zeroPageIndexedAddr 0xFF 0x01 = none := by
  constructor
  · intro o i h
    unfold zeroPageIndexedAddr checkedAdd
    rw [if_pos h, Nat.mod_eq_of_lt (by omega)]
  · rfl

/-- C7, witness: the in-range part of the zero-page theorem at operand =
0x80, X = 0x05. -/
theorem C7_witness :
    zeroPageIndexedAddr 0x80 0x05 = some ((0x80 + 0x05) % 256) :=
  C7_zero_page_wrap.1 0x80 0x05 (by decide)

/-- Models the Address-operand path of the Cmp/Cpx/Cpy arm of
Instruction::execute (instructions.rs lines 257-283) at the system level:
the operand is fetched with memory_get (the arm never calls memory_set;
the Value path does not consult the bus at all) and only the chip flags
are updated. -/
def cmpExecuteSys (s : Sys) (base addr : Nat) : Option Sys :=
  match memoryGet s addr with
  | none => none
  | some (value, s1) => some { s1 with chip := cmpExecute s1.chip base value }

/-- A bus read never changes RAM, ROM or the TIA (the only side effect a
read can have is on the RIOT interrupt flag). -/
lemma memoryGet_preserves {s : Sys} {addr v : Nat} {s1 : Sys}
    (h : memoryGet s addr = some (v, s1)) :
    s1.memory = s.memory ∧ s1.program = s.program ∧ s1.tia = s.tia := by
  unfold memoryGet at h
  split_ifs at h
  · simp only [Option.some.injEq, Prod.mk.injEq] at h
    rw [← h.2]
    exact ⟨rfl, rfl, rfl⟩
  · simp only [Option.some.injEq, Prod.mk.injEq] at h
    rw [← h.2]
    exact ⟨rfl, rfl, rfl⟩
  · rcases hg : Tia.get s.tia (addr &&& 0x000F) with _ | val
    · rw [hg] at h
      exact absurd h (by simp)
    · rw [hg] at h
      rw [Option.map_some'] at h
      simp only [Option.some.injEq, Prod.mk.injEq] at h
      rw [← h.2]
      exact ⟨rfl, rfl, rfl⟩
  · rcases hg : Riot.get s.riot addr with _ | vr
    · rw [hg] at h
      exact absurd h (by simp)
    · rw [hg] at h
      rw [Option.map_some'] at h
      simp only [Option.some.injEq, Prod.mk.injEq] at h
      rw [← h.2]
      exact ⟨rfl, rfl, rfl⟩

/-- C6, counterexample.  The claim states that after CMP/CPX/CPY the carry
is set iff R ≥ M.  At R = M = 1 (the operands of the repository's own
test_instruction_type_cmp_execute, which asserts the carry clear) the code
clears the carry although 1 ≥ 1. -/
theorem C6_counterexample :
    (cmpExecute Chip.new 1 1).c = false ∧ 1 ≥ 1 := by
  exact ⟨rfl, le_refl 1⟩

/-- C6, amended.  After a compare with register value R and operand M:
Z = (R = M), N = bit 7 of (R − M) mod 256, and C is set from the strict
comparison R > M — so C is cleared when R = M, not set as the no-borrow
reading R ≥ M demands; no register other than the flags is written, and
no memory location is written: a compare that fetches its operand through
the bus leaves RAM, ROM and the TIA unchanged (the arm only ever calls
memory_get, never memory_set). -/
theorem C6_cmp_flags (ch : Chip) (base value : Nat)
    (hb : base < 256) (hv : value < 256) :
    (cmpExecute ch base value).z = decide (base = value) ∧
      (cmpExecute ch base value).n = decide (128 ≤ (base + 256 - value) % 256) ∧
      (cmpExecute ch base value).c = decide (value < base) ∧
      (cmpExecute ch base value).a = ch.a ∧
      (cmpExecute ch base value).x = ch.x ∧
      (cmpExecute ch base value).y = ch.y ∧
      (cmpExecute ch base value).sp = ch.sp ∧
      (cmpExecute ch base value).pc = ch.pc ∧
      (∀ (s : Sys) (addr : Nat) (s2 : Sys),
        cmpExecuteSys s base addr = some s2 →
        s2.memory = s.memory ∧ s2.program = s.program ∧ s2.tia = s.tia) := by
  refine ⟨?_, ?_, rfl, rfl, rfl, rfl, rfl, rfl, ?_⟩
  · show decide _ = _
    rw [decide_eq_decide]
    omega
  · show decide _ = _
    rw [decide_eq_decide]
    exact land128_iff (Nat.mod_lt _ (by omega))
  · intro s addr s2 h
    unfold cmpExecuteSys at h
    rcases hg : memoryGet s addr with _ | p
    · rw [hg] at h
      exact absurd h (by simp)
    · obtain ⟨val, s1⟩ := p
      rw [hg] at h
      injection h with h2
      obtain ⟨hm, hp, ht⟩ := memoryGet_preserves hg
      rw [← h2]
      exact ⟨hm, hp, ht⟩

/-- The concrete system used by the C6 witness: the power-on state over
an all-zero ROM; address 0x80 is the first RAM cell. -/
def cmpWitnessSys : Sys := Sys.new (fun _ => 0)

/-- C6, witness: the amended theorem evaluated at R = 1, M = 1, with the
no-memory-write conjunct applied to a compare fetching its operand from
RAM address 0x80 on the concrete power-on system. -/
theorem C6_witness :
    (cmpExecute Chip.new 1 1).z = decide ((1 : Nat) = 1) ∧
      (cmpExecute Chip.new 1 1).n = decide (128 ≤ (1 + 256 - 1) % 256) ∧
      (cmpExecute Chip.new 1 1).c = decide ((1 : Nat) < 1) ∧
      (cmpExecute Chip.new 1 1).a = Chip.new.a ∧
      (cmpExecute Chip.new 1 1).x = Chip.new.x ∧
      (cmpExecute Chip.new 1 1).y = Chip.new.y ∧
      (cmpExecute Chip.new 1 1).sp = Chip.new.sp ∧
      (cmpExecute Chip.new 1 1).pc = Chip.new.pc ∧
      ({ cmpWitnessSys with
          chip := cmpExecute cmpWitnessSys.chip 1 0 } : Sys).memory =
        cmpWitnessSys.memory ∧
      ({ cmpWitnessSys with
          chip := cmpExecute cmpWitnessSys.chip 1 0 } : Sys).program =
        cmpWitnessSys.program ∧
      ({ cmpWitnessSys with
          chip := cmpExecute cmpWitnessSys.chip 1 0 } : Sys).tia =
        cmpWitnessSys.tia := by
  have h := C6_cmp_flags Chip.new 1 1 (by decide) (by decide)
  obtain ⟨h1, h2, h3, h4, h5, h6, h7, h8, h9⟩ := h
  have hmem := h9 cmpWitnessSys 0x80
    { cmpWitnessSys with chip := cmpExecute cmpWitnessSys.chip 1 0 } rfl
  exact ⟨h1, h2, h3, h4, h5, h6, h7, h8, hmem.1, hmem.2.1, hmem.2.2⟩

end Stanley
